import Mathlib

/-!
Verification development for the AIND-Isolation game agent
(`game_agent.py`, `heuristics.py`).

The search engine (`CustomPlayer.minimax`, `CustomPlayer.alphabeta`,
`CustomPlayer.alphabeta_max`, `CustomPlayer.alphabeta_min`,
`CustomPlayer.get_move`) is embedded shallowly:

* Python floats produced by the engine are modelled by `PyFloat`
  (a rational or one of the two infinities); the engine never produces NaN.
* The external `isolation.Board` collaborator is modelled extensionally by a
  finite labelled game tree `Game`: each node carries the value
  `game.get_player_location(self)` (`loc`), the value `self.score(game, self)`
  of the configured evaluation function at that node (`sc`), and the
  association list `children` pairing each legal move (in the provider's
  enumeration order) with the board produced by `game.forecast_move`.
  `game.get_legal_moves()` is `children.map Prod.fst`.
* The wall clock `self.time_left()` is modelled by a function
  `tl : Nat -> Rat` giving the value returned by the k-th call to
  `time_left()`; the number of calls made so far is threaded through
  `minimax` as an explicit counter.  `TIMER_THRESHOLD` is `thr`.
* The `Timeout` exception and the `UnboundLocalError` that
  `alphabeta_max`/`alphabeta_min` can raise are modelled with `Except`.
* Python's `depth` argument is an `Int` only tested via `depth <= 0` and
  decremented by 1; it is modelled by a `Nat`, whose `0` case stands for
  every non-positive depth (the code's behaviour is uniform there).
-/

namespace Iso

/-- Board moves are `(row, col)` integer pairs; `(-1, -1)` is the engine's
no-move sentinel. -/
abbrev Move := Int × Int

/-- Python float values produced by the engine: a rational number or one of
the infinities `float('-inf')` / `float('inf')`. -/
inductive PyFloat where
  | negInf
  | fin (q : ℚ)
  | posInf
deriving DecidableEq, Repr

/-- Python's `<` on the floats of `PyFloat`. -/
def PyFloat.lt : PyFloat → PyFloat → Bool
  | .negInf, .negInf => false
  | .negInf, _ => true
  | .fin _, .negInf => false
  | .fin a, .fin b => decide (a < b)
  | .fin _, .posInf => true
  | .posInf, _ => false

/-- Python's `<` on move tuples: lexicographic, row first. -/
def moveLt (a b : Move) : Bool :=
  decide (a.1 < b.1) || (a.1 == b.1 && decide (a.2 < b.2))

/-- SearchResult: the `(score, move)` pair returned by the search. -/
abbrev SR := PyFloat × Move

/-- Python's `<` on `(score, move)` tuples: score first, then the move,
exactly Python's lexicographic tuple comparison. -/
def srLt (a b : SR) : Bool :=
  PyFloat.lt a.1 b.1 || (a.1 == b.1 && moveLt a.2 b.2)

/-- Python `max(a, b)` on SearchResult tuples: the first argument wins ties. -/
def pymax (a b : SR) : SR := if srLt a b then b else a

/-- Python `min(a, b)` on SearchResult tuples: the first argument wins ties. -/
def pymin (a b : SR) : SR := if srLt b a then b else a

/-- Python `max(a, b)` on floats. -/
def pfmax (a b : PyFloat) : PyFloat := if PyFloat.lt a b then b else a

/-- Python `min(a, b)` on floats. -/
def pfmin (a b : PyFloat) : PyFloat := if PyFloat.lt b a then b else a

/-- Extensional model of an `isolation.Board` state as seen by the search:
`loc` is `game.get_player_location(self)`, `sc` is `self.score(game, self)`,
and `children` pairs each legal move (enumeration order preserved) with the
state `game.forecast_move` produces for it. -/
inductive Game where
  | mk (loc : Move) (sc : PyFloat) (children : List (Move × Game))

/-- The value `game.get_player_location(self)` at this state. -/
def Game.loc : Game → Move
  | .mk l _ _ => l

/-- The value `self.score(game, self)` at this state. -/
def Game.sc : Game → PyFloat
  | .mk _ s _ => s

/-- Legal moves paired with their successor states, in enumeration order. -/
def Game.children : Game → List (Move × Game)
  | .mk _ _ c => c

/-- The exceptions the embedded engine can raise: `Timeout` from the time
guard, and the `UnboundLocalError` raised when `alphabeta_max`/`alphabeta_min`
execute `return (best_score, best_move)` with `best_move` never assigned. -/
inductive PyErr where
  | timeout
  | unboundLocal
deriving DecidableEq, Repr

/-- The loop `for lm in legal_moves: ...` of `CustomPlayer.minimax`
(game_agent.py lines 198-203).  `ev c m` is the recursive call
`self.minimax(game.forecast_move(lm), depth - 1, maximizing_player)` run with
time-call counter `m`; the accumulator `best` is `best_score`.  Each step is
`best_score = optimizer(best_score, score)` followed by
`if best_score == score: best_score = (best_score[0], lm)`. -/
def mmLoop (ev : Game → Nat → Except PyErr (SR × Nat)) (maxi : Bool) :
    List (Move × Game) → SR → Nat → Except PyErr (SR × Nat)
  | [], best, n => .ok (best, n)
  | p :: rest, best, n =>
    match ev p.2 n with
    | .error e => .error e
    | .ok (s, n') =>
      let b := (if maxi then pymax else pymin) best s
      mmLoop ev maxi rest (if b == s then (b.1, p.1) else b) n'

/-- `CustomPlayer.minimax` (game_agent.py lines 153-204).  Checks the time
guard, then the no-legal-moves case, then the `depth <= 0` leaf case, and
otherwise folds `mmLoop` over the legal moves.  Note the recursive call keeps
`maximizing_player` unchanged, exactly as line 199 of the source does.  The
result pairs the SearchResult with the updated time-call counter. -/
def minimax (tl : Nat → ℚ) (thr : ℚ) :
    Nat → Game → Bool → Nat → Except PyErr (SR × Nat)
  | 0, g, _, n =>
    if tl n < thr then .error .timeout
    else if g.children.isEmpty then .ok ((.fin 0, (-1, -1)), n + 1)
    else .ok ((g.sc, g.loc), n + 1)
  | d + 1, g, maxi, n =>
    if tl n < thr then .error .timeout
    else if g.children.isEmpty then .ok ((.fin 0, (-1, -1)), n + 1)
    else
      mmLoop (fun c m => minimax tl thr d c maxi m) maxi g.children
        ((if maxi then .negInf else .posInf), ((0 : Int), (0 : Int))) (n + 1)

/-- The `for lm in game.get_legal_moves():` loops shared by
`CustomPlayer.alphabeta_max` and `CustomPlayer.alphabeta_min`
(game_agent.py lines 256-264 and 270-278), selected by `side`
(`true` = maximizing).  `ev c a b` is the recursive call on the child with
the current bounds; `best`/`bm` are `best_score`/`best_move`, with
`bm = none` while `best_move` is still unassigned.  After the loop (and on a
cutoff reached with `best_move` unassigned) `return (best_score, best_move)`
raises `UnboundLocalError` when `bm = none`. -/
def abLoop (ev : Game → PyFloat → PyFloat → Except PyErr SR) (side : Bool) :
    List (Move × Game) → PyFloat → PyFloat → PyFloat → Option Move →
    Except PyErr SR
  | [], _, _, best, bm =>
    match bm with
    | none => .error .unboundLocal
    | some m => .ok (best, m)
  | p :: rest, alpha, beta, best, bm =>
    match ev p.2 alpha beta with
    | .error e => .error e
    | .ok r =>
      if side then
        if PyFloat.lt best r.1 then
          if PyFloat.lt r.1 beta then
            abLoop ev side rest (pfmax alpha r.1) beta r.1 (some p.1)
          else .ok (r.1, p.1)
        else
          if PyFloat.lt best beta then
            abLoop ev side rest (pfmax alpha best) beta best bm
          else
            match bm with
            | none => .error .unboundLocal
            | some m => .ok (best, m)
      else
        if PyFloat.lt r.1 best then
          if PyFloat.lt alpha r.1 then
            abLoop ev side rest alpha (pfmin beta r.1) r.1 (some p.1)
          else .ok (r.1, p.1)
        else
          if PyFloat.lt alpha best then
            abLoop ev side rest alpha (pfmin beta best) best bm
          else
            match bm with
            | none => .error .unboundLocal
            | some m => .ok (best, m)

/-- The mutually recursive pair `CustomPlayer.alphabeta_max` /
`CustomPlayer.alphabeta_min` (game_agent.py lines 252-278), merged into one
definition indexed by `side` so the recursion is structural in the depth.
Each body is: `if depth <= 0: return (self.score(game, self),
game.get_player_location(self))`, then the move loop with the flipped side
at `depth - 1`.  Neither function consults `self.time_left`. -/
def abSearch : Nat → Bool → Game → PyFloat → PyFloat → Except PyErr SR
  | 0, _, g, _, _ => .ok (g.sc, g.loc)
  | d + 1, side, g, alpha, beta =>
    abLoop (fun c a b => abSearch d (!side) c a b) side g.children alpha beta
      (if side then .negInf else .posInf) none

/-- `CustomPlayer.alphabeta_max` (game_agent.py lines 252-264). -/
def alphabeta_max (g : Game) (depth : Nat) (alpha beta : PyFloat) :
    Except PyErr SR :=
  abSearch depth true g alpha beta

/-- `CustomPlayer.alphabeta_min` (game_agent.py lines 266-278). -/
def alphabeta_min (g : Game) (depth : Nat) (alpha beta : PyFloat) :
    Except PyErr SR :=
  abSearch depth false g alpha beta

/-- `CustomPlayer.alphabeta` (game_agent.py lines 206-250): one time-guard
check (reading `tl n`), then dispatch to `alphabeta_max` or `alphabeta_min`
by `maximizing_player`.  No counter needs threading: the max/min bodies
never call `time_left`. -/
def alphabeta (tl : Nat → ℚ) (thr : ℚ) (g : Game) (depth : Nat)
    (alpha beta : PyFloat) (maxi : Bool) (n : Nat) : Except PyErr SR :=
  if tl n < thr then .error .timeout
  else if maxi then alphabeta_max g depth alpha beta
  else alphabeta_min g depth alpha beta

/-- Modelled from the spec: the move-combination loop of the Depth-Limited
Minimax of spec section 4.2, which this repository's `minimax` does not
implement faithfully.  Per the spec, the move whose recursive score strictly
improves the optimum is tracked, and on ties the first-found optimum is
kept. -/
def specMMLoop (ev : Game → SR) (maxi : Bool) :
    List (Move × Game) → SR → SR
  | [], best => best
  | p :: rest, best =>
    let s := ev p.2
    specMMLoop ev maxi rest
      (if (if maxi then PyFloat.lt best.1 s.1 else PyFloat.lt s.1 best.1)
       then (s.1, p.1) else best)

/-- Modelled from the spec: section 4.2's Depth-Limited Minimax, the
behaviour the claims ascribe to `CustomPlayer.minimax`.  With no legal moves
it returns `(0, NoMove)`; at `depth <= 0` it returns the evaluation paired
with the current location; otherwise it recurses on every legal move at
`depth - 1` with the maximizing flag negated and combines with max/min. -/
def specMinimax : Nat → Game → Bool → SR
  | 0, g, _ =>
    if g.children.isEmpty then (.fin 0, (-1, -1)) else (g.sc, g.loc)
  | d + 1, g, maxi =>
    if g.children.isEmpty then (.fin 0, (-1, -1))
    else
      specMMLoop (fun c => specMinimax d c (!maxi)) maxi g.children
        ((if maxi then .negInf else .posInf), (-1, -1))

/-- The configuration fields of `CustomPlayer.__init__` used by `get_move`
(the evaluation function is carried by the `Game` nodes instead). -/
structure Player where
  search_depth : Nat
  iterative : Bool
  method : String
  threshold : ℚ

/-- The `while True:` loop of `CustomPlayer.get_move`'s iterative branch
(game_agent.py lines 136-140): `best_move = max(best_move,
self.minimax(game, iterator)); iterator += 1`, stopped by the `Timeout`
caught at line 145.  `fuel` bounds how many iterations the model runs;
`none` means the timer had still not fired after `fuel` iterations (the
Python loop would still be running). -/
def getMoveLoop (tl : Nat → ℚ) (thr : ℚ) (g : Game) :
    Nat → SR → Nat → Nat → Option SR
  | 0, _, _, _ => none
  | fuel + 1, best, it, n =>
    match minimax tl thr it g true n with
    | .error _ => some best
    | .ok (r, n') => getMoveLoop tl thr g fuel (pymax best r) (it + 1) n'

/-- The fixed-depth branch of `CustomPlayer.get_move` (lines 141-143): the
sentinel `(float('-inf'), (-1, -1))` is replaced by
`self.minimax(game, self.search_depth)` only when the root has legal moves
and no `Timeout` is raised; the move component is returned. -/
def getMoveFixed (p : Player) (tl : Nat → ℚ) (g : Game) : Move :=
  if g.children.isEmpty then (-1, -1)
  else
    match minimax tl p.threshold p.search_depth g true 0 with
    | .error _ => (-1, -1)
    | .ok (r, _) => r.2

/-- `CustomPlayer.get_move` (game_agent.py lines 84-151).  Note that it
always searches with `self.minimax`: the dispatch on `self.method` is only
present as the commented-out line 134, so `p.method` is never consulted. -/
def getMove (p : Player) (tl : Nat → ℚ) (g : Game) (fuel : Nat) :
    Option Move :=
  if p.iterative then
    (getMoveLoop tl p.threshold g fuel (.negInf, (-1, -1)) 1 0).map
      (fun r => r.2)
  else some (getMoveFixed p tl g)

/-- The list of results of the completed iterative-deepening iterations
starting at depth `it` with time-call counter `n`: collects `minimax`
results at depths `it, it + 1, ...` until the first `Timeout`; `none` if the
timer has not fired within `fuel` iterations. -/
def iterResults (tl : Nat → ℚ) (thr : ℚ) (g : Game) :
    Nat → Nat → Nat → Option (List SR)
  | 0, _, _ => none
  | fuel + 1, it, n =>
    match minimax tl thr it g true n with
    | .error _ => some []
    | .ok (r, n') => (iterResults tl thr g fuel (it + 1) n').map (r :: ·)

/-- Extensional model of the `(game, player)` arguments of the heuristic
functions: the observations of the external `isolation.Board` that
`heuristics.py` and `custom_score` consume.  `legalMoves` is
`game.get_legal_moves()` (active player), `ownMoves`/`oppMoves` are the
lengths of `game.get_legal_moves(player)` and
`game.get_legal_moves(game.get_opponent(player))`, `loc` is
`game.get_player_location(player)`, and `blanks` is
`len(game.get_blank_spaces())`. -/
structure HGame where
  width : Int
  height : Int
  isWinner : Bool
  isLoser : Bool
  legalMoves : List Move
  ownMoves : Nat
  oppMoves : Nat
  loc : Move
  moveIsLegal : Move → Bool
  blanks : Nat

/-- `custom_score` (game_agent.py lines 17-41): returns
`float(len(game.get_legal_moves()))`, with no win/loss check. -/
def custom_score (g : HGame) : PyFloat :=
  .fin (g.legalMoves.length : ℚ)

/-- `weighted_improved_score` (heuristics.py lines 5-34). -/
def weighted_improved_score (g : HGame) : PyFloat :=
  if g.isLoser then .negInf
  else if g.isWinner then .posInf
  else .fin (((10 * (g.ownMoves : Int) - 5 * (g.oppMoves : Int) : Int)) : ℚ)

/-- heuristics.py line 41. -/
def row_minus_one_column_cero : List Move := [(-2, -2), (-2, 2)]

/-- heuristics.py line 42. -/
def row_plus_one_column_cero : List Move := [(2, -2), (2, 2)]

/-- heuristics.py line 43. -/
def row_cero_column_minus_one : List Move := [(-2, -2), (-2, 2)]

/-- heuristics.py line 44. -/
def row_cero_column_plus_one : List Move := [(-2, 2), (2, 2)]

/-- heuristics.py lines 46-49 (dict in insertion order). -/
def row_cero_column_minus_two : List (Move × List Move) :=
  [((-1, 0), row_minus_one_column_cero), ((1, 0), row_plus_one_column_cero)]

/-- heuristics.py lines 50-53. -/
def row_minus_one_column_plus_one : List (Move × List Move) :=
  [((0, -1), row_cero_column_minus_one), ((1, 0), row_plus_one_column_cero)]

/-- heuristics.py lines 54-57. -/
def row_minus_two_column_cero : List (Move × List Move) :=
  [((0, -1), row_cero_column_minus_one), ((0, 1), row_cero_column_plus_one)]

/-- heuristics.py lines 58-61. -/
def row_plus_one_column_minus_one : List (Move × List Move) :=
  [((-1, 0), row_minus_one_column_cero), ((0, 1), row_cero_column_plus_one)]

/-- heuristics.py lines 62-65. -/
def row_minus_one_column_minus_one : List (Move × List Move) :=
  [((0, 1), row_cero_column_plus_one), ((1, 0), row_plus_one_column_cero)]

/-- heuristics.py lines 66-69. -/
def row_plus_two_column_cero : List (Move × List Move) :=
  [((0, -1), row_cero_column_minus_one), ((0, 1), row_cero_column_plus_one)]

/-- heuristics.py lines 70-73. -/
def row_plus_one_column_plus_one : List (Move × List Move) :=
  [((-1, 0), row_minus_one_column_cero), ((0, -1), row_cero_column_minus_one)]

/-- heuristics.py lines 74-77. -/
def row_cero_column_plus_two : List (Move × List Move) :=
  [((-1, 0), row_minus_one_column_cero), ((1, 0), row_plus_one_column_cero)]

/-- heuristics.py lines 79-108: the `directions` dict, in insertion order
(only seven first-level knight directions appear in the source). -/
def directions : List (Move × List (Move × List (Move × List Move))) :=
  [((-2, -1), [((0, -2), row_cero_column_minus_two),
               ((-1, 1), row_minus_one_column_plus_one)]),
   ((-1, -2), [((-2, 0), row_minus_two_column_cero),
               ((1, -1), row_plus_one_column_minus_one)]),
   ((1, -2), [((-1, -1), row_minus_one_column_minus_one),
              ((2, 0), row_plus_two_column_cero)]),
   ((2, -1), [((0, -2), row_cero_column_minus_two),
              ((1, 1), row_plus_one_column_plus_one)]),
   ((2, 1), [((0, 2), row_cero_column_plus_two),
             ((1, -1), row_minus_one_column_minus_one)]),
   ((1, 2), [((-1, 1), row_minus_one_column_plus_one),
             ((2, 0), row_plus_two_column_cero)]),
   ((-1, 2), [((-2, 0), row_minus_two_column_cero),
              ((1, 1), row_plus_one_column_plus_one)])]

/-- `future_moves_weight` (heuristics.py lines 110-167): the win/loss guards
followed by the four nested legality-weighted loops over `directions`, all
offsets taken from the player's current location. -/
def future_moves_weight (g : HGame) : PyFloat :=
  if g.isLoser then .negInf
  else if g.isWinner then .posInf
  else
    .fin (((directions.foldl (fun sc d1 =>
      if g.moveIsLegal (g.loc.1 + d1.1.1, g.loc.2 + d1.1.2) then
        d1.2.foldl (fun sc d2 =>
          if g.moveIsLegal (g.loc.1 + d2.1.1, g.loc.2 + d2.1.2) then
            d2.2.foldl (fun sc d3 =>
              if g.moveIsLegal (g.loc.1 + d3.1.1, g.loc.2 + d3.1.2) then
                d3.2.foldl (fun sc d4 =>
                  if g.moveIsLegal (g.loc.1 + d4.1, g.loc.2 + d4.2) then
                    sc + 16
                  else sc) (sc + 8)
              else sc) (sc + 4)
          else sc) (sc + 1)
      else sc) (0 : Int)) : Int) : ℚ)

/-- The `NameError` a Python call of an undefined name raises. -/
inductive HErr where
  | nameError
deriving DecidableEq, Repr

/-- `mixed_heuristic` (heuristics.py lines 170-194).  The else branch of the
source is `return difference_player_biased(game, player)`, but no definition
of `difference_player_biased` exists anywhere in the repository, so reaching
it raises `NameError`; it is modelled as that error. -/
def mixed_heuristic (g : HGame) : Except HErr PyFloat :=
  if ((g.width * g.height : Int) : ℚ) / 2 > (g.blanks : ℚ) then
    .ok (future_moves_weight g)
  else .error .nameError

/-- A clock that never comes near the threshold (the time guard never
fires). -/
def tlBig : Nat → ℚ := fun _ => 1000

/-- A clock that is exhausted after its very first reading: `100` on call 0,
then `0` forever. -/
def tlOnce : Nat → ℚ := fun n => if n = 0 then 100 else 0

/-- A clock whose first eight readings are comfortable and which is
exhausted from reading 8 on. -/
def tlEight : Nat → ℚ := fun n => if n < 8 then 100 else 0

/-- A clock that is already exhausted at the first reading. -/
def tlZero : Nat → ℚ := fun _ => 0

/-- A board state at `depth <= 0` is still expanded-from above, so test
nodes that act as evaluation leaves keep one dummy legal move (a leaf with
no legal moves would take the no-moves branch instead). -/
def leafG (l : Move) (q : ℚ) : Game :=
  .mk l (.fin q) [((9, 9), .mk (9, 9) (.fin 0) [])]

/-- Subtree `A` of `rootAB`: reached by move `(1,1)`, its two moves lead to
evaluation leaves scoring 1 and 9. -/
def nodeA : Game :=
  .mk (1, 1) (.fin 0) [((3, 3), leafG (3, 3) 1), ((4, 4), leafG (4, 4) 9)]

/-- Subtree `B` of `rootAB`: reached by move `(2,2)`, its two moves lead to
evaluation leaves scoring 5 and 4. -/
def nodeB : Game :=
  .mk (2, 2) (.fin 0) [((5, 5), leafG (5, 5) 5), ((6, 6), leafG (6, 6) 4)]

/-- A depth-2 test position: move `(1,1)` leads to `nodeA` (leaves 1 and 9),
move `(2,2)` to `nodeB` (leaves 5 and 4).  An alternating minimax values it
`max(min(1,9), min(5,4)) = 4` via `(2,2)`; maximizing on both plies values
it `max(max(1,9), max(5,4)) = 9` via `(1,1)`. -/
def rootAB : Game := .mk (0, 0) (.fin 0) [((1, 1), nodeA), ((2, 2), nodeB)]

/-- A position whose depth-1 value (9, via `(1,1)`) is higher than its
depth-2 value (5, via `(2,2)`): the immediate evaluations are 9 and 3, but
one ply deeper they become 2 and 5. -/
def rootID : Game :=
  .mk (0, 0) (.fin 0)
    [((1, 1), .mk (1, 1) (.fin 9) [((5, 5), leafG (5, 5) 2)]),
     ((2, 2), .mk (2, 2) (.fin 3) [((6, 6), leafG (6, 6) 5)])]

/-- A position with two moves `(1,1)` and `(2,2)` whose evaluation leaves
tie at score 5; the leaves' player locations are `(0,0)` and `(5,5)`. -/
def tieChildren : List (Move × Game) :=
  [((1, 1), leafG (0, 0) 5), ((2, 2), leafG (5, 5) 5)]

/-- The tie position as a game. -/
def tieG : Game := .mk (0, 0) (.fin 0) tieChildren

/-- A position with no legal moves at all. -/
def emptyG : Game := .mk (3, 4) (.fin 7) []

/-- An iterative-deepening player (the `CustomPlayer` defaults except the
method name). -/
def pIter : Player := ⟨3, true, "minimax", 10⟩

/-- A fixed-depth player configured for alpha-beta at depth 2. -/
def pABFixed : Player := ⟨2, false, "alphabeta", 10⟩

/-- The maximum leaf score of a legal-move list together with the earliest
move attaining it: the head wins unless the tail's maximum is strictly
greater. -/
def firstMax : List (Move × Game) → Option (PyFloat × Move)
  | [] => none
  | p :: rest =>
    match firstMax rest with
    | none => some (p.2.sc, p.1)
    | some (s, m) =>
      if PyFloat.lt p.2.sc s then some (s, m) else some (p.2.sc, p.1)

/-- A state already won by the evaluated player in which the active player
(the opponent) has no legal moves left. -/
def hgWon : HGame :=
  ⟨7, 7, true, false, [], 4, 0, (3, 3), fun _ => false, 10⟩

/-- A state already lost by the evaluated player. -/
def hgLost : HGame :=
  ⟨7, 7, false, true, [], 0, 5, (3, 3), fun _ => false, 10⟩

/-- A non-terminal mid-game state. -/
def hgMid : HGame :=
  ⟨7, 7, false, false, [(2, 2), (2, 4)], 2, 3, (3, 3), fun _ => true, 20⟩

/-- A non-terminal state on a 7 by 7 board with 25 blank spaces, at least
half of the 49 cells. -/
def hgHalf : HGame :=
  ⟨7, 7, false, false, [(2, 2)], 1, 1, (3, 3), fun _ => true, 25⟩

lemma pyLt_trans {a b c : PyFloat} (h1 : PyFloat.lt a b = true)
    (h2 : PyFloat.lt b c = true) : PyFloat.lt a c = true := by
  cases a <;> cases b <;> cases c <;> (simp_all [PyFloat.lt]; try linarith)

lemma pyLt_false_trans {a b c : PyFloat} (h1 : PyFloat.lt a b = false)
    (h2 : PyFloat.lt b c = false) : PyFloat.lt a c = false := by
  cases a <;> cases b <;> cases c <;> (simp_all [PyFloat.lt]; try linarith)

lemma pyLt_ne_negInf {a b : PyFloat} (h : PyFloat.lt a b = true) :
    b ≠ .negInf := by
  cases a <;> cases b <;> simp_all [PyFloat.lt]

lemma pyLt_posInf {a : PyFloat} (h : a ≠ .posInf) :
    PyFloat.lt a .posInf = true := by
  cases a <;> simp_all [PyFloat.lt]

lemma pyLt_posInf_posInf : PyFloat.lt .posInf .posInf = false := rfl

lemma negInf_pyLt {a : PyFloat} (h : a ≠ .negInf) :
    PyFloat.lt .negInf a = true := by
  cases a <;> simp_all [PyFloat.lt]

/-- Both branches of `minimax` fail with `Timeout` when the clock reading at
entry is below the threshold. -/
lemma minimax_timeout (tl : Nat → ℚ) (thr : ℚ) (d : Nat) (g : Game)
    (maxi : Bool) (n : Nat) (h : tl n < thr) :
    minimax tl thr d g maxi n = .error .timeout := by
  cases d <;> simp [minimax, h]

/-- `alphabeta` fails with `Timeout` when the clock reading at entry is
below the threshold. -/
lemma alphabeta_timeout (tl : Nat → ℚ) (thr : ℚ) (g : Game) (d : Nat)
    (alpha beta : PyFloat) (maxi : Bool) (n : Nat) (h : tl n < thr) :
    alphabeta tl thr g d alpha beta maxi n = .error .timeout := by
  simp [alphabeta, h]

/-- The iterative `get_move` loop computes the Python-max fold of the
results of the completed iterations. -/
lemma getMoveLoop_eq_iterResults (tl : Nat → ℚ) (thr : ℚ) (g : Game) :
    ∀ (fuel : Nat) (best : SR) (it n : Nat),
    getMoveLoop tl thr g fuel best it n =
      (iterResults tl thr g fuel it n).map (fun l => l.foldl pymax best) := by
  intro fuel
  induction fuel with
  | zero => intros; rfl
  | succ f ih =>
    intro best it n
    cases h : minimax tl thr it g true n with
    | error e => simp [getMoveLoop, iterResults, h]
    | ok rn =>
      obtain ⟨r, n'⟩ := rn
      simp only [getMoveLoop, iterResults, h]
      rw [ih (pymax best r) (it + 1) n']
      cases hIR : iterResults tl thr g f (it + 1) n' <;> simp [hIR]

/-- In a maximizing depth-1 `alphabeta` loop over evaluation leaves with
`beta = +inf`, once some move `m0` holds the running best score `best`, the
loop returns the earliest tail move strictly beating `best` and attaining
the tail maximum, or keeps `(best, m0)`. -/
lemma abLoop_leaf_from (ev : Game → PyFloat → PyFloat → Except PyErr SR)
    (hEv : ∀ c a b, ev c a b = .ok (c.sc, c.loc)) :
    ∀ (l : List (Move × Game)) (alpha best : PyFloat) (m0 : Move),
    PyFloat.lt best .posInf = true →
    abLoop ev true l alpha .posInf best (some m0) =
      .ok (match firstMax l with
           | none => (best, m0)
           | some (s, m) =>
             if PyFloat.lt best s then (s, m) else (best, m0)) := by
  intro l
  induction l with
  | nil => intro alpha best m0 _; simp [abLoop, firstMax]
  | cons p rest ih =>
    intro alpha best m0 hb
    simp only [abLoop, hEv]
    by_cases h1 : PyFloat.lt best p.2.sc = true
    · rw [if_pos h1]
      by_cases hp : p.2.sc = .posInf
      · have hlt : PyFloat.lt p.2.sc .posInf = false := by rw [hp]; rfl
        rw [hlt]
        simp only [Bool.false_eq_true, if_false]
        rw [firstMax]
        cases hfm : firstMax rest with
        | none => simp [hfm, h1]
        | some pr =>
          obtain ⟨s', m'⟩ := pr
          have h2 : PyFloat.lt p.2.sc s' = false := by
            rw [hp]; cases s' <;> rfl
          simp [hfm, h2, h1]
      · have hlt : PyFloat.lt p.2.sc .posInf = true := pyLt_posInf hp
        rw [if_pos hlt, ih (pfmax alpha p.2.sc) p.2.sc p.1 hlt]
        rw [firstMax]
        cases hfm : firstMax rest with
        | none => simp [hfm, h1]
        | some pr =>
          obtain ⟨s', m'⟩ := pr
          by_cases h2 : PyFloat.lt p.2.sc s' = true
          · simp [hfm, h2, h1, pyLt_trans h1 h2]
          · simp only [Bool.not_eq_true] at h2
            simp [hfm, h2, h1]
    · simp only [Bool.not_eq_true] at h1
      rw [h1]
      simp only [Bool.false_eq_true, if_false]
      rw [if_pos hb, ih (pfmax alpha best) best m0 hb]
      rw [firstMax]
      cases hfm : firstMax rest with
      | none => simp [hfm, h1]
      | some pr =>
        obtain ⟨s', m'⟩ := pr
        by_cases h2 : PyFloat.lt p.2.sc s' = true
        · simp [hfm, h2]
        · simp only [Bool.not_eq_true] at h2
          simp [hfm, h2, h1, pyLt_false_trans h1 h2]

/-- In a maximizing depth-1 `alphabeta` loop over evaluation leaves with
`beta = +inf`, started from the unassigned `best_move` state, the result is
the earliest move attaining the maximum leaf score, unless that maximum is
`-inf`, in which case `best_move` is never assigned and the loop fails with
`UnboundLocalError`. -/
lemma abLoop_leaf_start (ev : Game → PyFloat → PyFloat → Except PyErr SR)
    (hEv : ∀ c a b, ev c a b = .ok (c.sc, c.loc)) :
    ∀ (l : List (Move × Game)) (alpha : PyFloat),
    abLoop ev true l alpha .posInf .negInf none =
      match firstMax l with
      | none => .error .unboundLocal
      | some (s, m) =>
        if s = .negInf then .error .unboundLocal else .ok (s, m) := by
  intro l
  induction l with
  | nil => simp [abLoop, firstMax]
  | cons p rest ih =>
    intro alpha
    simp only [abLoop, hEv]
    by_cases hp : p.2.sc = .negInf
    · have h1 : PyFloat.lt .negInf p.2.sc = false := by rw [hp]; rfl
      rw [h1]
      simp only [Bool.false_eq_true, if_false]
      rw [if_pos (by rfl : PyFloat.lt .negInf .posInf = true)]
      rw [ih (pfmax alpha .negInf)]
      rw [firstMax]
      cases hfm : firstMax rest with
      | none => simp [hfm, hp]
      | some pr =>
        obtain ⟨s', m'⟩ := pr
        by_cases h2 : s' = .negInf
        · simp [hfm, h2, hp, PyFloat.lt]
        · have h3 : PyFloat.lt p.2.sc s' = true := by
            rw [hp]; exact negInf_pyLt h2
          simp [hfm, h3, h2]
    · have h1 : PyFloat.lt .negInf p.2.sc = true := negInf_pyLt hp
      rw [if_pos h1]
      by_cases hq : p.2.sc = .posInf
      · have hlt : PyFloat.lt p.2.sc .posInf = false := by rw [hq]; rfl
        rw [hlt]
        simp only [Bool.false_eq_true, if_false]
        rw [firstMax]
        cases hfm : firstMax rest with
        | none => simp [hfm, hp]
        | some pr =>
          obtain ⟨s', m'⟩ := pr
          have h2 : PyFloat.lt p.2.sc s' = false := by
            rw [hq]; cases s' <;> rfl
          simp [hfm, h2, hp]
      · have hlt : PyFloat.lt p.2.sc .posInf = true := pyLt_posInf hq
        rw [if_pos hlt,
          abLoop_leaf_from ev hEv rest (pfmax alpha p.2.sc) p.2.sc p.1 hlt]
        rw [firstMax]
        cases hfm : firstMax rest with
        | none => simp [hfm, hp]
        | some pr =>
          obtain ⟨s', m'⟩ := pr
          by_cases h2 : PyFloat.lt p.2.sc s' = true
          · simp [hfm, h2, pyLt_ne_negInf h2]
          · simp only [Bool.not_eq_true] at h2
            simp [hfm, h2, hp]

/-- `firstMax l` names the earliest move of `l` attaining the maximum leaf
score: it splits `l` around that move, and every earlier child scores
strictly less. -/
lemma firstMax_mem :
    ∀ (l : List (Move × Game)) (s : PyFloat) (m : Move),
    firstMax l = some (s, m) →
    ∃ pre c post, l = pre ++ (m, c) :: post ∧ c.sc = s ∧
      ∀ p ∈ pre, PyFloat.lt p.2.sc s = true := by
  intro l
  induction l with
  | nil => simp [firstMax]
  | cons p rest ih =>
    intro s m h
    cases hfm : firstMax rest with
    | none =>
      simp only [firstMax, hfm, Option.some.injEq, Prod.mk.injEq] at h
      exact ⟨[], p.2, rest, by simp [← h.1, ← h.2], h.1, by simp⟩
    | some pr =>
      obtain ⟨s', m'⟩ := pr
      simp only [firstMax, hfm] at h
      by_cases hlt : PyFloat.lt p.2.sc s' = true
      · rw [if_pos hlt] at h
        simp only [Option.some.injEq, Prod.mk.injEq] at h
        obtain ⟨h1, h2⟩ := h
        subst h1; subst h2
        obtain ⟨pre', c', post', hsplit, hsc, hpre⟩ := ih _ _ hfm
        refine ⟨p :: pre', c', post', by simp [hsplit], hsc, ?_⟩
        intro q hq
        rcases List.mem_cons.mp hq with hq | hq
        · subst hq; exact hlt
        · exact hpre q hq
      · rw [if_neg hlt] at h
        simp only [Option.some.injEq, Prod.mk.injEq] at h
        exact ⟨[], p.2, rest, by simp [← h.1, ← h.2], h.1, by simp⟩

/-- Claim C1: the claim says `minimax` recursively calls the search at
`depth - 1` with the maximizing flag negated, so that maximizing and
minimizing layers alternate.  The code (game_agent.py line 199) passes
`maximizing_player` unchanged.  At the depth-2 position `rootAB` the code
therefore maximizes on both plies and returns score 9 via move `(1,1)`,
whereas the alternating search the claim describes (`specMinimax`, modelled
from spec section 4.2) returns score 4 via move `(2,2)`. -/
theorem c1_minimax_flag_not_negated :
    minimax tlBig 10 2 rootAB true 0 = .ok ((.fin 9, (1, 1)), 7)
    ∧ specMinimax 2 rootAB true = (.fin 4, (2, 2))
    ∧ ((PyFloat.fin 9, ((1 : Int), (1 : Int))) : SR)
        ≠ ((PyFloat.fin 4, ((2 : Int), (2 : Int))) : SR) :=
  ⟨rfl, rfl, by decide⟩

/-- Claim C2: the claim says `alphabeta` with open bounds returns the same
score as `minimax` at the same state and depth when the time guard never
fires.  Because `minimax` never flips its maximizing flag while
`alphabeta_max`/`alphabeta_min` alternate correctly, the two searches
disagree at the depth-2 position `rootAB`: `minimax` scores it 9,
`alphabeta` scores it 4. -/
theorem c2_alphabeta_score_differs :
    minimax tlBig 10 2 rootAB true 0 = .ok ((.fin 9, (1, 1)), 7)
    ∧ alphabeta tlBig 10 rootAB 2 .negInf .posInf true 0 = .ok (.fin 4, (2, 2))
    ∧ PyFloat.fin 9 ≠ PyFloat.fin 4 :=
  ⟨rfl, rfl, by decide⟩

/-- Claim C3 counterexample: the claim says every recursive invocation —
including the nested `alphabeta_max`/`alphabeta_min` calls — checks the
remaining time and raises `Timeout` iff it is below the threshold.  With the
clock `tlOnce` (100 on the first reading, 0 afterwards, threshold 10) a
depth-2 `alphabeta` search of `rootAB` completes normally even though every
reading after the first is far below the threshold, because only the
top-level `alphabeta` entry checks the clock; `minimax`, which does check at
every node, times out on the same input. -/
theorem c3_counterexample :
    tlOnce 1 < 10
    ∧ alphabeta tlOnce 10 rootAB 2 .negInf .posInf true 0 = .ok (.fin 4, (2, 2))
    ∧ minimax tlOnce 10 2 rootAB true 0 = .error .timeout :=
  ⟨by norm_num [tlOnce], rfl, rfl⟩

/-- Claim C4 counterexample: the claim says iterative `get_move` returns
exactly the result of the deepest fully completed iteration.  With clock
`tlEight` on position `rootID`, iteration depth 1 completes with
`(9, (1,1))` (clock readings 0-2), iteration depth 2 completes with
`(5, (2,2))` (readings 3-7), and iteration depth 3 times out immediately
(reading 8).  The deepest completed iteration returned move `(2,2)`, but
`get_move` returns `(1,1)`: it keeps the Python-max of all completed
iterations' `(score, move)` pairs, and depth 1 scored higher. -/
theorem c4_counterexample :
    minimax tlEight 10 1 rootID true 0 = .ok ((.fin 9, (1, 1)), 3)
    ∧ minimax tlEight 10 2 rootID true 3 = .ok ((.fin 5, (2, 2)), 8)
    ∧ minimax tlEight 10 3 rootID true 8 = .error .timeout
    ∧ getMove pIter tlEight rootID 10 = some (1, 1)
    ∧ (some ((1 : Int), (1 : Int)) : Option Move) ≠ some (2, 2) :=
  ⟨rfl, rfl, rfl, rfl, by decide⟩

/-- Claim C5: the claim (and the source docstring) say both `minimax` and
`alphabeta` return `(0, (-1, -1))` at an expanded node with no legal moves.
`minimax` does (game_agent.py lines 192-193), but `alphabeta_max` and
`alphabeta_min` have no such branch: with no legal moves their loop body
never runs and `return (best_score, best_move)` reads the never-assigned
`best_move`, raising `UnboundLocalError` instead of returning a value. -/
theorem c5_no_moves_divergence :
    minimax tlBig 10 1 emptyG true 0 = .ok ((.fin 0, (-1, -1)), 1)
    ∧ alphabeta tlBig 10 emptyG 1 .negInf .posInf true 0 =
        .error .unboundLocal
    ∧ alphabeta tlBig 10 emptyG 1 .negInf .posInf false 0 =
        .error .unboundLocal :=
  ⟨rfl, rfl, rfl⟩

/-- Claim C6: the claim (and the `get_move` docstring) say `get_move`
invokes the search selected by `self.method`.  The dispatch is only the
commented-out line 134 of game_agent.py: `get_move` always calls
`self.minimax`.  The player `pABFixed` is configured with
`method = "alphabeta"` at fixed depth 2, yet on `rootAB` its `get_move`
returns `minimax`'s move `(1,1)` and not the move `(2,2)` that `alphabeta`
computes on the same input. -/
theorem c6_get_move_ignores_method :
    pABFixed.method = "alphabeta"
    ∧ getMove pABFixed tlBig rootAB 0 = some (1, 1)
    ∧ alphabeta tlBig 10 rootAB 2 .negInf .posInf true 0 = .ok (.fin 4, (2, 2))
    ∧ minimax tlBig 10 2 rootAB true 0 = .ok ((.fin 9, (1, 1)), 7) :=
  ⟨rfl, rfl, rfl, rfl⟩

/-- Claim C7 counterexample: the claim says that on score ties both
searches return the move enumerated first.  In `tieG` both legal moves
`(1,1)` and `(2,2)` lead to evaluation leaves scoring 5; `alphabeta`
returns the first move `(1,1)`, but `minimax` returns the later move
`(2,2)`: its `max` compares the whole `(score, move)` tuples, and on equal
scores the comparison falls through to the child results' move fields. -/
theorem c7_counterexample :
    (leafG (0, 0) 5).sc = (leafG (5, 5) 5).sc
    ∧ tieG.children.map Prod.fst = [(1, 1), (2, 2)]
    ∧ minimax tlBig 10 1 tieG true 0 = .ok ((.fin 5, (2, 2)), 3)
    ∧ alphabeta tlBig 10 tieG 1 .negInf .posInf true 0 = .ok (.fin 5, (1, 1)) :=
  ⟨rfl, rfl, rfl, rfl⟩

/-- Claim C9 counterexample: the claim says every evaluation function
supplied by the repository returns `+inf` on a state already won by the
player.  `custom_score` (game_agent.py line 41) is
`float(len(game.get_legal_moves()))` with no win/loss guard: on the won
state `hgWon` it returns the finite value 0, not `+inf`. -/
theorem c9_counterexample :
    hgWon.isWinner = true
    ∧ custom_score hgWon = .fin 0
    ∧ PyFloat.fin 0 ≠ .posInf :=
  ⟨rfl, rfl, by decide⟩

/-- Claim C3 (amended): the time guard runs at the start of every `minimax`
invocation and at the entry of `alphabeta`, raising `Timeout` iff the clock
reading there is below `TIMER_THRESHOLD`, and the exception propagates
unmodified; but the nested `alphabeta_max`/`alphabeta_min` recursion never
checks the clock, so `alphabeta`'s result depends only on the single
reading made at entry.  Part four exhibits `minimax`'s per-invocation
check: with a healthy reading at entry but an exhausted one at the next
reading, the first child's recursive invocation raises and the `Timeout`
propagates out of the parent. -/
theorem c3_amended_time_guard (tl tl' : Nat → ℚ) (thr : ℚ) (g : Game)
    (d : Nat) (alpha beta : PyFloat) (maxi : Bool) (n : Nat) :
    (tl n < thr → minimax tl thr d g maxi n = .error .timeout)
    ∧ (tl n < thr → alphabeta tl thr g d alpha beta maxi n = .error .timeout)
    ∧ (tl' n = tl n →
        alphabeta tl' thr g d alpha beta maxi n =
          alphabeta tl thr g d alpha beta maxi n)
    ∧ (thr ≤ tl n → tl (n + 1) < thr → g.children ≠ [] →
        minimax tl thr (d + 1) g maxi n = .error .timeout) := by
  refine ⟨minimax_timeout tl thr d g maxi n,
    alphabeta_timeout tl thr g d alpha beta maxi n, ?_, ?_⟩
  · intro h; rw [alphabeta, alphabeta, h]
  · intro h1 h2 h3
    cases g with
    | mk loc sc cs =>
      cases cs with
      | nil => exact absurd rfl h3
      | cons c rest =>
        simp only [minimax, Game.children, Game.sc, Game.loc,
          not_lt.mpr h1, if_false, List.isEmpty_cons, Bool.false_eq_true,
          mmLoop, minimax_timeout tl thr d c.2 maxi (n + 1) h2]

/-- Claim C3 amended witness at concrete inputs: with `tlOnce` every reading
after the first is 0, so `minimax` and `alphabeta` invoked at reading index
1 time out, a depth-1 `minimax` of `rootAB` started at index 0 times out
through its first child, and `alphabeta` under `tlOnce` equals `alphabeta`
under the clock `tlEight` that agrees with it only at reading 0. -/
theorem c3_amended_time_guard_witness :
    minimax tlOnce 10 1 rootAB true 1 = .error .timeout
    ∧ alphabeta tlOnce 10 rootAB 1 .negInf .posInf true 1 = .error .timeout
    ∧ alphabeta tlOnce 10 rootAB 2 .negInf .posInf true 0 =
        alphabeta tlEight 10 rootAB 2 .negInf .posInf true 0
    ∧ minimax tlOnce 10 1 rootAB true 0 = .error .timeout :=
  ⟨(c3_amended_time_guard tlOnce tlOnce 10 rootAB 1 .negInf .posInf true 1).1
      (by norm_num [tlOnce]),
   (c3_amended_time_guard tlOnce tlOnce 10 rootAB 1 .negInf .posInf true
      1).2.1 (by norm_num [tlOnce]),
   (c3_amended_time_guard tlEight tlOnce 10 rootAB 2 .negInf .posInf true
      0).2.2.1 (by norm_num [tlOnce, tlEight]),
   (c3_amended_time_guard tlOnce tlOnce 10 rootAB 0 .negInf .posInf true
      0).2.2.2 (by norm_num [tlOnce]) (by norm_num [tlOnce])
      (List.cons_ne_nil _ _)⟩

/-- Claim C4 (amended): the iterative branch of `get_move` runs the search
at depths 1, 2, 3, ... and, when an iteration raises `Timeout`, discards
that iteration's partial work and returns the move of the Python-max
(lexicographic) `(score, move)` pair over the initial sentinel
`(-inf, (-1,-1))` and the results of all fully completed iterations — not
necessarily the deepest completed iteration's result.  If even the depth-1
iteration cannot complete, the sentinel is kept and `get_move` returns
`(-1, -1)`. -/
theorem c4_amended_best_of_completed (tl : Nat → ℚ) (thr : ℚ) (g : Game)
    (fuel : Nat) (best : SR) (it n : Nat) (p : Player) :
    getMoveLoop tl thr g fuel best it n =
      (iterResults tl thr g fuel it n).map (fun l => l.foldl pymax best)
    ∧ (p.iterative = true → 1 ≤ fuel → tl 0 < p.threshold →
        getMove p tl g fuel = some (-1, -1)) := by
  refine ⟨getMoveLoop_eq_iterResults tl thr g fuel best it n, ?_⟩
  intro hit hfuel ht
  obtain ⟨f, rfl⟩ : ∃ f, fuel = f + 1 := ⟨fuel - 1, by omega⟩
  simp only [getMove, hit, if_true, getMoveLoop,
    minimax_timeout tl p.threshold 1 g true 0 ht]
  rfl

/-- Claim C4 amended witness at concrete inputs: the loop/fold equality at
the `rootID` run of the counterexample, and the sentinel return under a
clock that is exhausted from the start. -/
theorem c4_amended_best_of_completed_witness :
    getMoveLoop tlEight 10 rootID 10 (.negInf, (-1, -1)) 1 0 =
      (iterResults tlEight 10 rootID 10 1 0).map
        (fun l => l.foldl pymax (.negInf, (-1, -1)))
    ∧ getMove pIter tlZero rootID 1 = some (-1, -1) :=
  ⟨(c4_amended_best_of_completed tlEight 10 rootID 10 (.negInf, (-1, -1)) 1 0
      pIter).1,
   (c4_amended_best_of_completed tlZero 10 rootID 1 (.negInf, (-1, -1)) 1 0
      pIter).2 rfl (by norm_num) (by norm_num [tlZero, pIter])⟩

/-- Claim C7 (amended): at a depth-1 maximizing alpha-beta node searched
with `beta = +inf`, when the maximum leaf score is attained by several legal
moves, `alphabeta_max` returns the move appearing earliest in the
enumeration order (ties never displace the incumbent, because only a
strictly greater child score updates `best_move`), provided that maximum is
not `-inf` (in which case the code raises `UnboundLocalError` instead).
`firstMax l = some (s, m)` states that `s` is the maximum leaf score of `l`
and `m` its earliest attaining move, as the second conjunct makes explicit;
`minimax` does not share this property (see the counterexample). -/
theorem c7_amended_first_found (loc : Move) (sc : PyFloat)
    (l : List (Move × Game)) (alpha s : PyFloat) (m : Move)
    (hfm : firstMax l = some (s, m)) (hs : s ≠ .negInf) :
    alphabeta_max (Game.mk loc sc l) 1 alpha .posInf = .ok (s, m)
    ∧ ∃ pre c post, l = pre ++ (m, c) :: post ∧ c.sc = s ∧
        ∀ p ∈ pre, PyFloat.lt p.2.sc s = true := by
  constructor
  · have e1 : alphabeta_max (Game.mk loc sc l) 1 alpha .posInf =
        abLoop (fun c a b => abSearch 0 (!true) c a b) true l alpha .posInf
          .negInf none := rfl
    rw [e1, abLoop_leaf_start (fun c a b => abSearch 0 (!true) c a b)
      (fun c a b => rfl) l alpha, hfm]
    simp [hs]
  · exact firstMax_mem l s m hfm

/-- Claim C7 amended witness at the tie position: both moves of
`tieChildren` score 5, and `alphabeta_max` returns the earlier one,
`(1,1)`. -/
theorem c7_amended_first_found_witness :
    alphabeta_max (Game.mk (0, 0) (.fin 0) tieChildren) 1 .negInf .posInf =
      .ok (.fin 5, (1, 1))
    ∧ ∃ pre c post, tieChildren = pre ++ ((1, 1), c) :: post ∧
        c.sc = .fin 5 ∧ ∀ p ∈ pre, PyFloat.lt p.2.sc (.fin 5) = true :=
  c7_amended_first_found (0, 0) (.fin 0) tieChildren .negInf (.fin 5) (1, 1)
    rfl (by decide)

/-- Claim C8: at a `depth <= 0` node (`depth = 0` in the `Nat` model of the
non-positive depths) reached by `minimax` with at least one legal move, and
at every `depth <= 0` node of `alphabeta_max`/`alphabeta_min`/`alphabeta`,
the search returns the configured evaluation of the state paired with the
acting player's current location `g.loc` — not a move from the parent's
legal-move set (in the `Game` model `g.sc` is `self.score(game, self)` and
`g.loc` is `game.get_player_location(self)`). -/
theorem c8_leaf_rule (tl : Nat → ℚ) (thr : ℚ) (g : Game)
    (alpha beta : PyFloat) (maxi : Bool) (n : Nat) :
    (thr ≤ tl n → g.children ≠ [] →
      minimax tl thr 0 g maxi n = .ok ((g.sc, g.loc), n + 1))
    ∧ alphabeta_max g 0 alpha beta = .ok (g.sc, g.loc)
    ∧ alphabeta_min g 0 alpha beta = .ok (g.sc, g.loc)
    ∧ (thr ≤ tl n → alphabeta tl thr g 0 alpha beta maxi n =
        .ok (g.sc, g.loc)) := by
  refine ⟨?_, rfl, rfl, ?_⟩
  · intro h hne
    cases g with
    | mk loc sc cs =>
      cases cs with
      | nil => exact absurd rfl hne
      | cons c rest =>
        simp [minimax, not_lt.mpr h, Game.children, Game.sc, Game.loc]
  · intro h
    cases maxi <;>
      simp [alphabeta, alphabeta_max, alphabeta_min, not_lt.mpr h, abSearch]

/-- Claim C8 witness at the node `nodeA` (which has legal moves), depth 0:
all four forms return the evaluation paired with the player location. -/
theorem c8_leaf_rule_witness :
    minimax tlBig 10 0 nodeA true 0 = .ok ((nodeA.sc, nodeA.loc), 1)
    ∧ alphabeta_max nodeA 0 .negInf .posInf = .ok (nodeA.sc, nodeA.loc)
    ∧ alphabeta_min nodeA 0 .negInf .posInf = .ok (nodeA.sc, nodeA.loc)
    ∧ alphabeta tlBig 10 nodeA 0 .negInf .posInf true 0 =
        .ok (nodeA.sc, nodeA.loc) := by
  obtain ⟨h1, h2, h3, h4⟩ := c8_leaf_rule tlBig 10 nodeA .negInf .posInf
    true 0
  exact ⟨h1 (by norm_num [tlBig]) (List.cons_ne_nil _ _), h2, h3,
    h4 (by norm_num [tlBig])⟩

/-- Claim C9 (amended): `weighted_improved_score` and `future_moves_weight`
satisfy the consumed evaluation contract — `-inf` on a state lost by the
player, `+inf` on a state won by the player, and a finite value otherwise —
but `custom_score` does not: it returns the finite value
`float(len(game.get_legal_moves()))` on every state, including won and lost
ones. -/
theorem c9_amended_contract (g : HGame) :
    (g.isLoser = true →
      weighted_improved_score g = .negInf ∧ future_moves_weight g = .negInf)
    ∧ (g.isLoser = false → g.isWinner = true →
      weighted_improved_score g = .posInf ∧ future_moves_weight g = .posInf)
    ∧ (g.isLoser = false → g.isWinner = false →
      (∃ q, weighted_improved_score g = .fin q)
      ∧ (∃ q, future_moves_weight g = .fin q))
    ∧ (∃ q, custom_score g = .fin q) := by
  refine ⟨?_, ?_, ?_, ⟨_, rfl⟩⟩
  · intro h
    exact ⟨by simp [weighted_improved_score, h],
      by simp [future_moves_weight, h]⟩
  · intro h1 h2
    exact ⟨by simp [weighted_improved_score, h1, h2],
      by simp [future_moves_weight, h1, h2]⟩
  · intro h1 h2
    constructor
    · rw [weighted_improved_score, if_neg (by simp [h1]),
        if_neg (by simp [h2])]
      exact ⟨_, rfl⟩
    · rw [future_moves_weight, if_neg (by simp [h1]), if_neg (by simp [h2])]
      exact ⟨_, rfl⟩

/-- Claim C9 amended witness at the concrete states `hgLost`, `hgWon` and
`hgMid`. -/
theorem c9_amended_contract_witness :
    (weighted_improved_score hgLost = .negInf
      ∧ future_moves_weight hgLost = .negInf)
    ∧ (weighted_improved_score hgWon = .posInf
      ∧ future_moves_weight hgWon = .posInf)
    ∧ ((∃ q, weighted_improved_score hgMid = .fin q)
      ∧ (∃ q, future_moves_weight hgMid = .fin q))
    ∧ (∃ q, custom_score hgMid = .fin q) :=
  ⟨(c9_amended_contract hgLost).1 rfl,
   (c9_amended_contract hgWon).2.1 rfl rfl,
   (c9_amended_contract hgMid).2.2.1 rfl rfl,
   (c9_amended_contract hgMid).2.2.2⟩

/-- Claim C10: on every non-terminal state in which the number of blank
spaces is at least half the board area, `mixed_heuristic` takes its else
branch, whose call of the undefined name `difference_player_biased` raises
`NameError` instead of returning a score. -/
theorem c10_mixed_heuristic_name_error (g : HGame)
    (_hw : g.isWinner = false) (_hl : g.isLoser = false)
    (h : ((g.width * g.height : Int) : ℚ) / 2 ≤ (g.blanks : ℚ)) :
    mixed_heuristic g = .error .nameError := by
  rw [mixed_heuristic, if_neg (not_lt.mpr h)]

/-- Claim C10 witness: the non-terminal state `hgHalf` on a 7 by 7 board
with 25 blank spaces. -/
theorem c10_mixed_heuristic_name_error_witness :
    mixed_heuristic hgHalf = .error .nameError :=
  c10_mixed_heuristic_name_error hgHalf rfl rfl (by norm_num [hgHalf])

end Iso
